import Mathlib

/-!
Verification of the RAG backend (ingestion / retrieval / answer generation).

Shallow embedding conventions:
* A Python `str` is modelled as `List Char` (`PyStr`); Python `len`, slicing and
  concatenation become `List.length`, `List.take`/`List.drop` and `++`, all by
  code points, matching Python semantics.
* Fallible Python code (functions that may `raise`) returns `Except PyErr _`.
* Wall-clock instants (`time.time()`) are passed explicitly as `Int` values.
* Python's salted, run-dependent `hash()` (used only to build chunk id strings)
  is modelled by an abstract deterministic function of the same arguments;
  no property below depends on the id values.
* Whitespace handling models the ASCII whitespace characters recognised by
  Python's `str.strip` / `str.split`.
-/

set_option linter.unusedVariables false
set_option maxRecDepth 8000

abbrev PyStr := List Char

/-- Errors raised by the modelled Python code. -/
inductive PyErr where
  | valueError
  | circuitOpen
  | generic
deriving DecidableEq

/-- ASCII whitespace as recognised by Python's `str.strip()` / `str.split()`. -/
def pyIsSpace (c : Char) : Bool :=
  c = ' ' || c = '\t' || c = '\n' || c = '\r' || c = '\x0b' || c = '\x0c'

/-- Python `s.strip()`: drop leading and trailing whitespace. -/
def pyStrip (s : PyStr) : PyStr :=
  (((s.dropWhile pyIsSpace).reverse).dropWhile pyIsSpace).reverse

/-- Maximal runs of characters satisfying `p` (separators discarded),
accumulator-based so that it is structurally recursive. -/
def runsOfAux (p : Char → Bool) : PyStr → PyStr → List PyStr
  | [], acc => if acc = [] then [] else [acc.reverse]
  | c :: rest, acc =>
    if p c then runsOfAux p rest (c :: acc)
    else if acc = [] then runsOfAux p rest []
    else acc.reverse :: runsOfAux p rest []

/-- Maximal runs of characters satisfying `p`. -/
def runsOf (p : Char → Bool) (s : PyStr) : List PyStr := runsOfAux p s []

/-- Python `s.split()` with no argument: split on whitespace runs, no empties. -/
def pySplitWs (s : PyStr) : List PyStr := runsOf (fun c => !(pyIsSpace c)) s

/-- Python slicing `s[:m]` for an `Int` bound (negative bounds count from the
end, as in Python). -/
def pySliceTo (s : PyStr) (m : Int) : PyStr :=
  if 0 ≤ m then s.take m.toNat else s.take ((s.length : Int) + m).toNat

/-- Python `s.rfind(c)`: index of the last occurrence, `-1` if absent. -/
def pyRfindChar (s : PyStr) (c : Char) : Int :=
  match s.reverse.findIdx? (fun a => a = c) with
  | some i => (s.length : Int) - 1 - i
  | none => -1

/-- Python `s.rsplit(sep, 1)[0]` for `sep = ' '`: everything before the last
space, or the whole string when it has no space. -/
def pyRsplitHead (s : PyStr) : PyStr :=
  if ' ' ∈ s then (((s.reverse).dropWhile (fun a => a ≠ ' ')).drop 1).reverse
  else s

/-- Python `needle in hay` on strings (substring containment). -/
def pyContains (hay needle : PyStr) : Bool := decide (needle <:+: hay)

/-- Python `s.lower()` (ASCII model). -/
def pyToLower (s : PyStr) : PyStr := s.map Char.toLower

/-!
## Prompt constructor (`backend/answer_generation/prompt_constructor.py`)
-/

/-- The fixed grounding-instruction sentence used by both prompt shapes. -/
def instructionsText : PyStr :=
  ("Answer the question using ONLY the provided context. Do not use any prior " ++
   "knowledge or information not present in the context. If the context does not " ++
   "contain sufficient information to answer the question, respond with " ++
   "\"I cannot answer this question based on the provided context.\" Ensure your " ++
   "answer is directly supported by the information in the context section above.").toList

/-- The prompt emitted when context is available (the f-string in
`construct_prompt` and the `final_prompt` in
`construct_prompt_with_length_management`). -/
def promptWithContext (contextText query : PyStr) : PyStr :=
  "Context:\n".toList ++ contextText ++ "\n\nQuestion: ".toList ++ query ++
    "\n\nInstructions: ".toList ++ instructionsText

/-- `_create_prompt_without_context(query)`. -/
def create_prompt_without_context (query : PyStr) : PyStr :=
  "Question: ".toList ++ query ++
    ("\n\nInstructions: The context needed to answer this question is not " ++
     "available. Respond with \"I cannot answer this question based on the " ++
     "provided context.\" Do not attempt to answer using any prior knowledge.").toList

/-- `construct_prompt(query, context_chunks, max_context_length)`. A blank
query raises `ValueError`. `max_context_length = none` models Python `None`;
the numeric value is an `Int` with Python truthiness (`0` is falsy). -/
def construct_prompt (query : PyStr) (context_chunks : List PyStr)
    (max_context_length : Option Int) : Except PyErr PyStr :=
  if query = [] || pyStrip query = [] then Except.error PyErr.valueError
  else if context_chunks = [] then Except.ok (create_prompt_without_context query)
  else
    let filtered_context := context_chunks.filter (fun c => !(c = []) && !(pyStrip c = []))
    if filtered_context = [] then Except.ok (create_prompt_without_context query)
    else
      let context_text := List.intercalate ['\n'] filtered_context
      let context_text :=
        match max_context_length with
        | none => context_text
        | some m =>
          if !(m = 0) && m < (context_text.length : Int) then
            let truncated := pySliceTo context_text m
            -- source lines 50-54: this guard compares against the *already
            -- truncated* length, so the backtracking branch is unreachable
            if m < (truncated.length : Int) then
              let last_space := pyRfindChar truncated ' '
              if 0 < last_space then pySliceTo truncated last_space else truncated
            else truncated
          else context_text
      Except.ok (promptWithContext context_text query)

/-- `validate_prompt_format(prompt)`. -/
def validate_prompt_format (prompt : PyStr) : Bool :=
  if prompt = [] || pyStrip prompt = [] then false
  else
    pyContains prompt "Context:".toList &&
    pyContains prompt "Question:".toList &&
    pyContains prompt "Instructions:".toList

/-- The chunk-selection loop of `construct_prompt_with_length_management`
(source lines 143-160): state is the selected list (returned) and
`current_length`; a chunk that would overflow is truncated and ends the loop
only when more than 100 characters remain, otherwise it is skipped and the
loop continues. -/
def selectContextChunks (remaining_length : Int) :
    Int → List PyStr → List PyStr
  | _, [] => []
  | current_length, chunk :: rest =>
    if chunk = [] || pyStrip chunk = [] then
      selectContextChunks remaining_length current_length rest
    else
      let chunk_length : Int := (chunk.length : Int) + 1
      if current_length + chunk_length ≤ remaining_length then
        chunk :: selectContextChunks remaining_length (current_length + chunk_length) rest
      else
        let remaining_space := remaining_length - current_length
        if 100 < remaining_space then [pyRsplitHead (pySliceTo chunk remaining_space)]
        else selectContextChunks remaining_length current_length rest

/-- The `base_prompt` template of `construct_prompt_with_length_management`. -/
def basePromptTemplate (query : PyStr) : PyStr :=
  "Question: ".toList ++ query ++ "\n\nInstructions: ".toList ++ instructionsText ++
    "\n\nContext:\n".toList

/-- `construct_prompt_with_length_management(query, context_chunks,
max_total_length)`. -/
def construct_prompt_with_length_management (query : PyStr)
    (context_chunks : List PyStr) (max_total_length : Int) : Except PyErr PyStr :=
  if query = [] || pyStrip query = [] then Except.error PyErr.valueError
  else if context_chunks = [] then Except.ok (create_prompt_without_context query)
  else
    let base_prompt := basePromptTemplate query
    let remaining_length : Int := max_total_length - (base_prompt.length : Int) - 500
    if remaining_length ≤ 0 then Except.ok (create_prompt_without_context query)
    else
      let selected_context := selectContextChunks remaining_length 0 context_chunks
      if selected_context = [] then Except.ok (create_prompt_without_context query)
      else
        Except.ok (promptWithContext (List.intercalate ['\n'] selected_context) query)

/-!
## Hallucination detection (`backend/answer_generation/utils.py`)
-/

/-- A regex word character (ASCII model of Python word characters: letters,
digits and the underscore). -/
def isWordChar (c : Char) : Bool := c.isAlphanum || c = '_'

/-- Models `set(re.findall(...))` for the pattern matching maximal runs of at
least four word characters: the distinct such runs of `s`. -/
def wordSet (s : PyStr) : List PyStr :=
  ((runsOf isWordChar s).filter (fun w => 4 ≤ w.length)).dedup

/-- The apostrophe character (kept out of string literals). -/
def apos : Char := Char.ofNat 39

/-- The six fixed abstention phrases of `detect_hallucination`. -/
def insufficientContextPhrases : List PyStr :=
  [ "i cannot answer".toList,
    "no context provided".toList,
    "not enough information".toList,
    "based on my general knowledge".toList,
    "i don".toList ++ apos :: "t have access to".toList,
    "i don".toList ++ apos :: "t know".toList ]

/-- `detect_hallucination(answer, context_chunks)`. The float comparison
`overlap_ratio < 0.3` is modelled exactly over the integers
(`10 * |common| < 3 * |answerWords|`). -/
def detect_hallucination (answer : PyStr) (context_chunks : List PyStr) : Bool :=
  if answer = [] || context_chunks = [] then false
  else
    let full_context := pyToLower (List.intercalate [' '] context_chunks)
    let answer_lower := pyToLower answer
    if insufficientContextPhrases.any (fun ph => pyContains answer_lower ph) then false
    else
      let answer_words := wordSet answer_lower
      let context_words := wordSet full_context
      if answer_words = [] then false
      else
        let common_words := answer_words.filter (fun w => w ∈ context_words)
        decide (10 * common_words.length < 3 * answer_words.length)

/-!
## Text processor (`backend/ingestion/text_processor.py`)
-/

/-- Sentence-terminal punctuation, the character class of the chunking
regular expressions. -/
def isPunctSep (c : Char) : Bool := c = '.' || c = '!' || c = '?'

/-- Group a string into maximal runs, each tagged with whether it is a run of
sentence-terminal punctuation. -/
def groupPunct : PyStr → List (Bool × PyStr)
  | [] => []
  | c :: rest =>
    match groupPunct rest with
    | (b, run) :: more =>
      if isPunctSep c = b then (b, c :: run) :: more
      else (isPunctSep c, [c]) :: (b, run) :: more
    | [] => [(isPunctSep c, [c])]

/-- Rebuild `re.split` pieces from the tagged runs: punctuation runs separate
pieces (producing empty pieces at the ends, as `re.split` does). -/
def splitFromGroups : List (Bool × PyStr) → List PyStr
  | [] => [[]]
  | (true, _) :: rest => [] :: splitFromGroups rest
  | (false, t) :: rest =>
    match splitFromGroups rest with
    | p :: ps => (t ++ p) :: ps
    | [] => [t]

/-- Models `re.split` of a text on runs of sentence-terminal punctuation. -/
def pySplitPunct (s : PyStr) : List PyStr := splitFromGroups (groupPunct s)

/-- Models `re.findall` of the runs of sentence-terminal punctuation. -/
def pyFindallPunct (s : PyStr) : List PyStr :=
  (groupPunct s).filterMap (fun g => if g.1 then some g.2 else none)

/-- Chunk metadata record produced by the text processor. -/
structure ContentChunk where
  id : PyStr
  text : PyStr
  source_url : PyStr
  position : Nat
  char_count : Nat
deriving DecidableEq

/-- Chunk id for a source URL and position: Python computes
`str(abs(hash(source_url + "_" + str(position))))` with a salted,
run-dependent `hash`; modelled as an abstract deterministic function of the
same two arguments. -/
def chunkId (source_url : PyStr) (position : Nat) : PyStr :=
  source_url ++ '_' :: (toString position).toList

/-- Build one emitted chunk record. -/
def mkChunk (source_url : PyStr) (position : Nat) (text : PyStr)
    (char_count : Nat) : ContentChunk :=
  { id := chunkId source_url position, text := text, source_url := source_url,
    position := position, char_count := char_count }

/-- `ending` selection of `chunk_text` (source lines 164-165):
`original_endings[min(i, len(original_endings)-1)] if i < len(original_endings)
else "."`. -/
def endingFor (endings : List PyStr) (i : Nat) : PyStr :=
  if i < endings.length then endings.getD (min i (endings.length - 1)) []
  else ['.']

/-- The fixed-size hard split of a single over-long word
(`for i in range(0, len(word), max_chunk_size)` slices, source lines 251-252);
structurally recursive on a character budget. `m = 0` raises in Python
(`range` with step 0) and is outside every property below. -/
def hardSplitGo (m : Nat) : Nat → PyStr → List PyStr
  | _, [] => []
  | 0, _ :: _ => []
  | fuel + 1, c :: rest =>
    (c :: rest.take (m - 1)) :: hardSplitGo m fuel (rest.drop (m - 1))

/-- Slice a word into consecutive pieces of `m` characters. -/
def hardSplit (m : Nat) (w : PyStr) : List PyStr := hardSplitGo m w.length w

/-- The word-packing loop of `_split_long_sentence` (source lines 236-257). -/
def splitLongLoop (max_chunk_size : Nat) : List PyStr → PyStr → List PyStr
  | [], current_chunk => if current_chunk = [] then [] else [current_chunk]
  | word :: words, current_chunk =>
    if current_chunk.length + word.length + 1 ≤ max_chunk_size then
      splitLongLoop max_chunk_size words
        (if current_chunk = [] then word else current_chunk ++ ' ' :: word)
    else if !(current_chunk = []) then
      current_chunk :: splitLongLoop max_chunk_size words word
    else if max_chunk_size < word.length then
      hardSplit max_chunk_size word ++ splitLongLoop max_chunk_size words []
    else
      splitLongLoop max_chunk_size words word

/-- `TextProcessor._split_long_sentence(sentence, max_chunk_size)`. -/
def split_long_sentence (sentence : PyStr) (max_chunk_size : Nat) : List PyStr :=
  if sentence.length ≤ max_chunk_size then [sentence]
  else splitLongLoop max_chunk_size (pySplitWs sentence) []

/-- The sentence-packing loop of `chunk_text` (source lines 158-215),
processing the enumerated `re.split` pieces; state is `current_chunk` and
`position`, emitted chunks are returned in order. -/
def chunkLoop (source_url : PyStr) (max_chunk_size : Nat) (endings : List PyStr)
    (num_sentences : Nat) : List (Nat × PyStr) → PyStr → Nat → List ContentChunk
  | [], current_chunk, position =>
    if current_chunk = [] then []
    else [mkChunk source_url position (pyStrip current_chunk) current_chunk.length]
  | (i, raw) :: rest, current_chunk, position =>
    let sentence := pyStrip raw
    if sentence = [] then
      chunkLoop source_url max_chunk_size endings num_sentences rest current_chunk position
    else
      let ending := endingFor endings i
      let sentence_with_ending :=
        if i < num_sentences - 1 || !(ending = ['.']) then sentence ++ ending else sentence
      if current_chunk.length + sentence_with_ending.length +
          (if current_chunk = [] then 0 else 1) ≤ max_chunk_size then
        let current_chunk :=
          if current_chunk = [] then sentence_with_ending
          else current_chunk ++ ' ' :: sentence_with_ending
        chunkLoop source_url max_chunk_size endings num_sentences rest current_chunk position
      else if !(current_chunk = []) then
        mkChunk source_url position (pyStrip current_chunk) current_chunk.length ::
          chunkLoop source_url max_chunk_size endings num_sentences rest
            sentence_with_ending (position + 1)
      else if max_chunk_size < sentence_with_ending.length then
        let subs := split_long_sentence sentence_with_ending max_chunk_size
        subs.enum.map (fun p => mkChunk source_url (position + p.1) p.2 p.2.length) ++
          chunkLoop source_url max_chunk_size endings num_sentences rest []
            (position + subs.length)
      else
        chunkLoop source_url max_chunk_size endings num_sentences rest
          sentence_with_ending position

/-- `TextProcessor.chunk_text(text, source_url, max_chunk_size)`. -/
def chunk_text (text source_url : PyStr) (max_chunk_size : Nat) : List ContentChunk :=
  if text.length ≤ max_chunk_size then
    [{ id := chunkId source_url 0, text := text, source_url := source_url,
       position := 0, char_count := text.length }]
  else
    let sentences := pySplitPunct text
    let endings := pyFindallPunct text
    chunkLoop source_url max_chunk_size endings sentences.length sentences.enum [] 0

/-!
## Circuit breaker and LLM gateway client
(`backend/answer_generation/openrouter_client.py`)
-/

/-- The three circuit-breaker states. -/
inductive CBState where
  | CLOSED
  | OPEN
  | HALF_OPEN
deriving DecidableEq

/-- `CircuitBreaker` instance state. `stateRaw` models `self._state`;
`last_failure_time` is `None` or a wall-clock instant. -/
structure CircuitBreaker where
  failure_threshold : Nat
  recovery_timeout : Int
  failure_count : Nat
  last_failure_time : Option Int
  stateRaw : CBState
deriving DecidableEq

/-- `CircuitBreaker.__init__(failure_threshold, recovery_timeout)`. -/
def mkCircuitBreaker (failure_threshold : Nat) (recovery_timeout : Int) :
    CircuitBreaker :=
  { failure_threshold := failure_threshold, recovery_timeout := recovery_timeout,
    failure_count := 0, last_failure_time := none, stateRaw := CBState.CLOSED }

/-- `CircuitBreaker._open_circuit()` at instant `now`. -/
def CircuitBreaker.openCircuit (cb : CircuitBreaker) (now : Int) : CircuitBreaker :=
  { cb with stateRaw := CBState.OPEN, last_failure_time := some now }

/-- The `state` property read at instant `now`: lazily promotes `OPEN` to
`HALF_OPEN` once the recovery timeout has elapsed (the guard
`self.last_failure_time` is Python truthiness: `None` and `0` both fail it).
Returns the mutated breaker together with the reported state. -/
def CircuitBreaker.state (cb : CircuitBreaker) (now : Int) :
    CircuitBreaker × CBState :=
  match cb.stateRaw, cb.last_failure_time with
  | CBState.OPEN, some t =>
    if !(t = 0) && cb.recovery_timeout ≤ now - t then
      ({ cb with stateRaw := CBState.HALF_OPEN }, CBState.HALF_OPEN)
    else (cb, CBState.OPEN)
  | _, _ => (cb, cb.stateRaw)

/-- `CircuitBreaker.call(func)` at instant `now`; `func` is the wrapped
operation's outcome (`Except.error` models it raising). -/
def CircuitBreaker.call {α : Type} (cb : CircuitBreaker) (now : Int)
    (func : Except PyErr α) : CircuitBreaker × Except PyErr α :=
  let s := cb.state now
  match s.2 with
  | CBState.OPEN => (s.1, Except.error PyErr.circuitOpen)
  | CBState.HALF_OPEN =>
    match func with
    | Except.ok r =>
      ({ s.1 with stateRaw := CBState.CLOSED, failure_count := 0 }, Except.ok r)
    | Except.error e => (s.1.openCircuit now, Except.error e)
  | CBState.CLOSED =>
    match func with
    | Except.ok r => (s.1, Except.ok r)
    | Except.error e =>
      let cb2 := { s.1 with failure_count := s.1.failure_count + 1 }
      if cb2.failure_threshold ≤ cb2.failure_count then
        (cb2.openCircuit now, Except.error e)
      else (cb2, Except.error e)

/-- Run a sequence of failing calls (each raising) at the given instants,
keeping the resulting breaker state. -/
def failTimes (cb : CircuitBreaker) (ts : List Int) : CircuitBreaker :=
  ts.foldl (fun c t => (c.call t (Except.error PyErr.generic : Except PyErr Unit)).1) cb

/-- Outcome of one HTTP POST inside `_make_request`: `ok` is an HTTP 200
response whose parsed body carries the given `choices` message contents (an
empty list also models a body with no `choices` key); `httpStatus` is any
non-200 status; the remaining constructors are the caught exception classes
(timeout, connection error, other request exception, any other exception,
including a 200 body that fails to parse). -/
inductive RequestOutcome where
  | ok (choices : List PyStr)
  | httpStatus (code : Int)
  | timeout
  | connError
  | reqError
  | otherError
deriving DecidableEq

/-- The retry loop of `OpenRouterClient._make_request` (source lines 150-236):
`outcomes i` is the outcome of POST number `i`; `remaining` counts the loop
iterations left (`maxRetries - attempt`). Returns the answer (`none` is the
"no answer" fallback) together with the number of POSTs performed. -/
def makeRequestGo (maxRetries : Nat) (outcomes : Nat → RequestOutcome) :
    Nat → Nat → Option PyStr × Nat
  | attempt, 0 => (none, attempt)
  | attempt, remaining + 1 =>
    match outcomes attempt with
    | RequestOutcome.ok choices =>
      match choices with
      | first :: _ => (some first, attempt + 1)
      | [] =>
        if attempt < maxRetries - 1 then
          makeRequestGo maxRetries outcomes (attempt + 1) remaining
        else (none, attempt + 1)
    | RequestOutcome.httpStatus code =>
      if code = 429 then makeRequestGo maxRetries outcomes (attempt + 1) remaining
      else if code = 401 then (none, attempt + 1)
      else if code = 400 then (none, attempt + 1)
      else if code = 403 then (none, attempt + 1)
      else if code = 404 then (none, attempt + 1)
      else if 500 ≤ code then
        if attempt < maxRetries - 1 then
          makeRequestGo maxRetries outcomes (attempt + 1) remaining
        else (none, attempt + 1)
      else
        if attempt < maxRetries - 1 then
          makeRequestGo maxRetries outcomes (attempt + 1) remaining
        else (none, attempt + 1)
    | RequestOutcome.timeout =>
      if attempt = maxRetries - 1 then (none, attempt + 1)
      else makeRequestGo maxRetries outcomes (attempt + 1) remaining
    | RequestOutcome.connError =>
      if attempt = maxRetries - 1 then (none, attempt + 1)
      else makeRequestGo maxRetries outcomes (attempt + 1) remaining
    | RequestOutcome.reqError =>
      if attempt = maxRetries - 1 then (none, attempt + 1)
      else makeRequestGo maxRetries outcomes (attempt + 1) remaining
    | RequestOutcome.otherError =>
      if attempt = maxRetries - 1 then (none, attempt + 1)
      else makeRequestGo maxRetries outcomes (attempt + 1) remaining

/-- `OpenRouterClient._make_request(prompt)` under the outcome sequence
`outcomes`: every path returns a value (it never raises). -/
def make_request (maxRetries : Nat) (outcomes : Nat → RequestOutcome) :
    Option PyStr × Nat :=
  makeRequestGo maxRetries outcomes 0 maxRetries

/-- `OpenRouterClient.send_request(prompt)`: wraps `_make_request` in the
circuit breaker; since `_make_request` never raises, the wrapped operation is
`Except.ok`; a breaker rejection is caught and turned into the `none`
fallback. -/
def send_request (cb : CircuitBreaker) (now : Int) (maxRetries : Nat)
    (outcomes : Nat → RequestOutcome) : CircuitBreaker × Option PyStr :=
  match cb.call now (Except.ok (make_request maxRetries outcomes).1) with
  | (cb2, Except.ok r) => (cb2, r)
  | (cb2, Except.error _) => (cb2, none)

/-- A sequence of `send_request` calls: each list entry is the call instant,
the retry bound and the outcome sequence for that call. Returns the final
breaker and the per-call results. -/
def sendRequests (cb : CircuitBreaker) :
    List (Int × Nat × (Nat → RequestOutcome)) → CircuitBreaker × List (Option PyStr)
  | [] => (cb, [])
  | (now, mr, oc) :: rest =>
    let r := send_request cb now mr oc
    let rs := sendRequests r.1 rest
    (rs.1, r.2 :: rs.2)

/-!
## Ingestion pipeline resume (`backend/ingestion/ingest.py`)
-/

/-- The work set computed by `run_ingestion_pipeline` (source lines 95-112):
with `resume`, sitemap entries (identified by their URL) already in the
checkpoint's `processed_urls` are filtered out; otherwise the full sitemap is
used. Extraction (`extract_and_chunk_url`) is attempted exactly for the
returned URLs, in order. -/
def urlsToProcess (sitemap_urls processed_urls : List PyStr) (resume : Bool) :
    List PyStr :=
  if resume then sitemap_urls.filter (fun u => decide (u ∉ processed_urls))
  else sitemap_urls

/-!
## Supporting lemmas
-/

lemma mem_dropWhile_of_not {p : Char → Bool} {c : Char} :
    ∀ {s : PyStr}, c ∈ s → p c = false → c ∈ s.dropWhile p := by
  intro s hc hp
  induction s with
  | nil => simp at hc
  | cons a t ih =>
    rw [List.dropWhile_cons]
    by_cases hpa : p a = true
    · simp only [hpa, if_true]
      rcases List.mem_cons.mp hc with h | h
      · subst h; rw [hp] at hpa; cases hpa
      · exact ih h
    · simp only [Bool.not_eq_true] at hpa
      simp [hpa, hc]

lemma pyStrip_ne_nil_of_mem {s : PyStr} {c : Char} (hc : c ∈ s)
    (hsp : pyIsSpace c = false) : pyStrip s ≠ [] := by
  unfold pyStrip
  intro h
  rw [List.reverse_eq_nil_iff] at h
  have h1 : c ∈ s.dropWhile pyIsSpace := mem_dropWhile_of_not hc hsp
  have h2 : c ∈ (s.dropWhile pyIsSpace).reverse := List.mem_reverse.mpr h1
  have h3 := mem_dropWhile_of_not h2 hsp
  rw [h] at h3
  simp at h3

lemma infix_app_left {m l r : PyStr} (h : m <:+: l) : m <:+: l ++ r := by
  obtain ⟨s, t, hst⟩ := h
  exact ⟨s, t ++ r, by rw [← hst]; simp⟩

lemma infix_app_right {m l r : PyStr} (h : m <:+: r) : m <:+: l ++ r := by
  obtain ⟨s, t, hst⟩ := h
  exact ⟨l ++ s, t, by rw [← hst]; simp⟩

lemma validate_promptWithContext (ctx q : PyStr) :
    validate_prompt_format (promptWithContext ctx q) = true := by
  have hC : 'C' ∈ promptWithContext ctx q := by
    unfold promptWithContext
    refine List.mem_append_left _ (List.mem_append_left _ (List.mem_append_left _
      (List.mem_append_left _ (List.mem_append_left _ ?_))))
    decide
  have hne : promptWithContext ctx q ≠ [] := List.ne_nil_of_mem hC
  have hstrip : pyStrip (promptWithContext ctx q) ≠ [] :=
    pyStrip_ne_nil_of_mem hC (by decide)
  have h1 : "Context:".toList <:+: promptWithContext ctx q := by
    unfold promptWithContext
    apply infix_app_left; apply infix_app_left; apply infix_app_left
    apply infix_app_left; apply infix_app_left
    decide
  have h2 : "Question:".toList <:+: promptWithContext ctx q := by
    unfold promptWithContext
    apply infix_app_left; apply infix_app_left; apply infix_app_left
    apply infix_app_right
    decide
  have h3 : "Instructions:".toList <:+: promptWithContext ctx q := by
    unfold promptWithContext
    apply infix_app_left; apply infix_app_right
    decide
  simp [validate_prompt_format, pyContains, hne, hstrip]
  exact ⟨⟨h1, h2⟩, h3⟩

/-!
## Claim theorems
-/

/-- C2 (counterexample): with a non-blank query and an empty context list,
`construct_prompt` emits the no-context prompt, which fails
`validate_prompt_format` because it contains no `Context:` marker — refuting
the claim that validation succeeds for every context list. -/
theorem construct_prompt_validate_empty_context_cex :
    construct_prompt "q".toList [] none =
      Except.ok (create_prompt_without_context "q".toList) ∧
    validate_prompt_format (create_prompt_without_context "q".toList) = false := by
  constructor
  · rfl
  · decide

/-- C2 (amended): for every non-blank query and every context list containing
at least one non-blank chunk, the prompt built by `construct_prompt` passes
`validate_prompt_format` (it contains the `Context:`, `Question:` and
`Instructions:` markers). -/
theorem construct_prompt_validate_nonblank_context (query c0 : PyStr)
    (chunks : List PyStr) (hq : pyStrip query ≠ []) (hc0 : c0 ∈ chunks)
    (hc0ne : c0 ≠ []) (hc0s : pyStrip c0 ≠ []) :
    ∃ p, construct_prompt query chunks none = Except.ok p ∧
      validate_prompt_format p = true := by
  have hqne : query ≠ [] := by
    intro h; subst h; exact hq rfl
  have hchunks : chunks ≠ [] := by
    intro h; subst h; simp at hc0
  have hfil : c0 ∈ chunks.filter (fun c => !(decide (c = [])) && !(decide (pyStrip c = []))) := by
    refine List.mem_filter.mpr ⟨hc0, ?_⟩
    simp [hc0ne, hc0s]
  have hfilne :
      chunks.filter (fun c => !(decide (c = [])) && !(decide (pyStrip c = []))) ≠ [] :=
    List.ne_nil_of_mem hfil
  refine ⟨promptWithContext
      (List.intercalate ['\n']
        (chunks.filter (fun c => !(decide (c = [])) && !(decide (pyStrip c = []))))) query,
    ?_, validate_promptWithContext _ _⟩
  simp [construct_prompt, hqne, hq, hchunks, hfilne]

/-- C2 (witness): the amended prompt-format claim at a concrete non-blank
query and context list. -/
theorem construct_prompt_validate_nonblank_context_witness :
    ∃ p, construct_prompt "q".toList ["ctx chunk".toList] none = Except.ok p ∧
      validate_prompt_format p = true :=
  construct_prompt_validate_nonblank_context "q".toList "ctx chunk".toList
    ["ctx chunk".toList] (by decide) (List.mem_cons_self _ _) (by decide) (by decide)

/-- C3 (counterexample): the answer `"ok"` with non-empty context contains no
abstention phrase and has no word of four or more characters, so the claim's
convention `overlapRatio = 0 < 0.3` demands a hallucination flag, yet
`detect_hallucination` returns `false` (the code returns early when the
answer has no qualifying words). -/
theorem detect_hallucination_no_words_cex :
    detect_hallucination "ok".toList ["something useful here".toList] = false ∧
    insufficientContextPhrases.all
      (fun ph => !(pyContains (pyToLower "ok".toList) ph)) = true ∧
    wordSet (pyToLower "ok".toList) = [] := by
  decide

/-- C3 (amended): `detect_hallucination` returns `false` whenever the answer
or the context list is empty, whenever the lower-cased answer contains one of
the six abstention phrases, and whenever the answer has no word of four or
more characters; in the remaining cases it returns `true` exactly when
`overlapRatio < 0.3`, i.e. `10·|answerWords ∩ contextWords| <
3·|answerWords|`. -/
theorem detect_hallucination_spec :
    (∀ answer chunks, answer = [] ∨ chunks = [] →
        detect_hallucination answer chunks = false) ∧
    (∀ answer chunks (ph : PyStr), ph ∈ insufficientContextPhrases →
        ph <:+: pyToLower answer → detect_hallucination answer chunks = false) ∧
    (∀ answer chunks, wordSet (pyToLower answer) = [] →
        detect_hallucination answer chunks = false) ∧
    (∀ answer chunks, answer ≠ [] → chunks ≠ [] →
        (∀ ph ∈ insufficientContextPhrases, ¬ ph <:+: pyToLower answer) →
        wordSet (pyToLower answer) ≠ [] →
        (detect_hallucination answer chunks = true ↔
          10 * ((wordSet (pyToLower answer)).filter
              (fun w => w ∈ wordSet (pyToLower (List.intercalate [' '] chunks)))).length <
            3 * (wordSet (pyToLower answer)).length)) := by
  refine ⟨?_, ?_, ?_, ?_⟩
  · intro answer chunks h
    rcases h with h | h <;> simp [detect_hallucination, h]
  · intro answer chunks ph hmem hinf
    have hany : insufficientContextPhrases.any
        (fun p => pyContains (pyToLower answer) p) = true :=
      List.any_eq_true.mpr ⟨ph, hmem, by simp [pyContains, hinf]⟩
    by_cases hg : answer = [] ∨ chunks = []
    · rcases hg with h | h <;> simp [detect_hallucination, h]
    · push_neg at hg
      simp [detect_hallucination, hg.1, hg.2, hany]
  · intro answer chunks hw
    by_cases hg : answer = [] ∨ chunks = []
    · rcases hg with h | h <;> simp [detect_hallucination, h]
    · push_neg at hg
      by_cases hany : insufficientContextPhrases.any
          (fun p => pyContains (pyToLower answer) p) = true
      · simp [detect_hallucination, hg.1, hg.2, hany]
      · simp only [Bool.not_eq_true] at hany
        simp [detect_hallucination, hg.1, hg.2, hany, hw]
  · intro answer chunks h1 h2 h3 h4
    have hany : insufficientContextPhrases.any
        (fun p => pyContains (pyToLower answer) p) = false := by
      rw [List.any_eq_false]
      intro p hp
      simp [pyContains, h3 p hp]
    simp [detect_hallucination, h1, h2, hany, h4]

/-- C3 (witness): the amended behaviour at concrete inputs — an empty answer,
an abstention answer, an answer with no qualifying words, and the overlap
comparison for a disjoint answer/context pair. -/
theorem detect_hallucination_spec_witness :
    detect_hallucination [] ["x".toList] = false ∧
    detect_hallucination "I cannot answer that".toList ["x".toList] = false ∧
    detect_hallucination "no no".toList ["x".toList] = false ∧
    (detect_hallucination "Quantum entanglement powers the engine.".toList
        ["The cat sat on the mat.".toList] = true ↔
      10 * ((wordSet (pyToLower "Quantum entanglement powers the engine.".toList)).filter
          (fun w => w ∈ wordSet (pyToLower
            (List.intercalate [' '] ["The cat sat on the mat.".toList])))).length <
        3 * (wordSet (pyToLower "Quantum entanglement powers the engine.".toList)).length) :=
  ⟨detect_hallucination_spec.1 [] ["x".toList] (Or.inl rfl),
   detect_hallucination_spec.2.1 "I cannot answer that".toList ["x".toList]
     "i cannot answer".toList (by decide) (by decide),
   detect_hallucination_spec.2.2.1 "no no".toList ["x".toList] (by decide),
   detect_hallucination_spec.2.2.2 "Quantum entanglement powers the engine.".toList
     ["The cat sat on the mat.".toList] (by decide) (by decide) (by decide) (by decide)⟩

/-- C8 (evaluation at the failing input): with `max_context_length = 8` and
context `"hello world"`, `construct_prompt` embeds the hard truncation
`"hello wo"`, cut mid-word; the backtracked truncation the claim requires
would be `"hello"` (second conjunct). The backtracking guard at source lines
50-53 compares `max_context_length` with the length of the *already
truncated* context, so it can never fire. -/
theorem construct_prompt_truncation_midword_eval :
    construct_prompt "q".toList ["hello world".toList] (some 8) =
      Except.ok (promptWithContext "hello wo".toList "q".toList) ∧
    pyRsplitHead (pySliceTo "hello world".toList 8) = "hello".toList :=
  ⟨rfl, rfl⟩

/-- C9 (counterexample): with a budget leaving 50 characters of context
space, the first chunk (60 characters) overflows but the remaining space is
not over 100, so — contrary to the claim — it is skipped rather than
truncated, and the following chunk `"bb bb"` is still considered and becomes
the whole selected context. -/
theorem length_management_small_space_cex :
    selectContextChunks 50 0 [List.replicate 60 'a', "bb bb".toList] =
      ["bb bb".toList] ∧
    construct_prompt_with_length_management "q".toList
        [List.replicate 60 'a', "bb bb".toList] 959 =
      Except.ok (promptWithContext "bb bb".toList "q".toList) :=
  ⟨rfl, rfl⟩

/-- Context length accumulated by the selection loop: each selected chunk
contributes its length plus one (the joining newline). -/
def ctxLen (chunks : List PyStr) : Nat := (chunks.map (fun c => c.length + 1)).sum

lemma selectContextChunks_append (remaining : Int) :
    ∀ (fits : List PyStr) (cur : Int) (tail : List PyStr),
      (∀ x ∈ fits, ¬(x = [] ∨ pyStrip x = [])) →
      cur + (ctxLen fits : Int) ≤ remaining →
      selectContextChunks remaining cur (fits ++ tail) =
        fits ++ selectContextChunks remaining (cur + (ctxLen fits : Int)) tail := by
  intro fits
  induction fits with
  | nil =>
    intro cur tail _ _
    simp [ctxLen]
  | cons x fits ih =>
    intro cur tail hnb hle
    have hx := hnb x (List.mem_cons_self _ _)
    push_neg at hx
    have hlen : (ctxLen (x :: fits) : Int) = ((x.length : Int) + 1) + (ctxLen fits : Int) := by
      simp [ctxLen]
    have hcond1 : (decide (x = []) || decide (pyStrip x = [])) = false := by
      simp [hx.1, hx.2]
    have hcond2 : cur + ((x.length : Int) + 1) ≤ remaining := by
      have h0 : (0 : Int) ≤ (ctxLen fits : Int) := Int.ofNat_nonneg _
      omega
    rw [List.cons_append]
    simp only [selectContextChunks, hcond1, Bool.false_eq_true, if_false, hcond2, if_pos]
    rw [ih (cur + ((x.length : Int) + 1)) tail (fun y hy => hnb y (List.mem_cons_of_mem _ hy))
      (by omega)]
    have harg : cur + ((x.length : Int) + 1) + (ctxLen fits : Int) =
        cur + (ctxLen (x :: fits) : Int) := by
      rw [hlen]
      ring
    rw [harg, List.cons_append]

/-- C9 (amended): the selection loop of
`construct_prompt_with_length_management` adds whole non-blank chunks in
order while they fit the remaining budget; at the first chunk that would
overflow, *if more than 100 characters of budget remain* the chunk is
truncated to the remaining space (backtracking to the last space), becomes
the last selected element and no later chunk is considered; otherwise that
chunk is skipped entirely and the loop continues with the later chunks. -/
theorem length_management_selection_spec
    (remaining_length : Int) (fits : List PyStr) (c : PyStr) (rest : List PyStr)
    (hfits : ∀ x ∈ fits, ¬(x = [] ∨ pyStrip x = []))
    (hc : ¬(c = [] ∨ pyStrip c = []))
    (hfit : (ctxLen fits : Int) ≤ remaining_length)
    (hover : remaining_length < (ctxLen fits : Int) + (c.length : Int) + 1) :
    (100 < remaining_length - (ctxLen fits : Int) →
      selectContextChunks remaining_length 0 (fits ++ c :: rest) =
        fits ++ [pyRsplitHead (pySliceTo c (remaining_length - (ctxLen fits : Int)))]) ∧
    (remaining_length - (ctxLen fits : Int) ≤ 100 →
      selectContextChunks remaining_length 0 (fits ++ c :: rest) =
        fits ++ selectContextChunks remaining_length (ctxLen fits : Int) rest) := by
  have happ := selectContextChunks_append remaining_length fits 0 (c :: rest) hfits
    (by omega)
  rw [zero_add] at happ
  push_neg at hc
  have hcond1 : (decide (c = []) || decide (pyStrip c = [])) = false := by
    simp [hc.1, hc.2]
  have hcond2 : ¬ ((ctxLen fits : Int) + ((c.length : Int) + 1) ≤ remaining_length) := by
    omega
  constructor
  · intro hsp
    rw [happ]
    simp only [selectContextChunks, hcond1, Bool.false_eq_true, if_false,
      hcond2, if_pos hsp]
  · intro hsp
    have hsp2 : ¬ (100 < remaining_length - (ctxLen fits : Int)) := by omega
    rw [happ]
    simp only [selectContextChunks, hcond1, Bool.false_eq_true, if_false,
      hcond2, if_neg hsp2]

/-- C9 (witness): the amended selection behaviour at a concrete budget where
the overflowing chunk is truncated (more than 100 characters remained). -/
theorem length_management_selection_spec_witness :
    selectContextChunks 150 0
        (["dd".toList] ++ (List.replicate 160 'a') :: ["ee".toList]) =
      ["dd".toList] ++
        [pyRsplitHead (pySliceTo (List.replicate 160 'a')
          (150 - (ctxLen ["dd".toList] : Int)))] :=
  (length_management_selection_spec 150 ["dd".toList] (List.replicate 160 'a')
    ["ee".toList] (by decide) (by decide) (by decide) (by decide)).1 (by decide)

lemma circuit_state_closed (cb : CircuitBreaker) (now : Int)
    (hst : cb.stateRaw = CBState.CLOSED) : cb.state now = (cb, CBState.CLOSED) := by
  unfold CircuitBreaker.state
  rw [hst]

lemma failTimes_closed_run :
    ∀ (ts : List Int) (cb : CircuitBreaker) (h : ts ≠ []),
      cb.stateRaw = CBState.CLOSED → cb.last_failure_time = none →
      cb.failure_count + ts.length = cb.failure_threshold →
      failTimes cb ts =
        { cb with
            failure_count := cb.failure_threshold
            stateRaw := CBState.OPEN
            last_failure_time := some (ts.getLast h) } := by
  intro ts
  induction ts with
  | nil => intro cb h; cases h rfl
  | cons t rest ih =>
    intro cb h hst hlast hcount
    have hstep : (cb.call t (Except.error PyErr.generic : Except PyErr Unit)).1 =
        (if cb.failure_threshold ≤ cb.failure_count + 1 then
          ({ cb with failure_count := cb.failure_count + 1 }).openCircuit t
        else { cb with failure_count := cb.failure_count + 1 }) := by
      unfold CircuitBreaker.call
      rw [circuit_state_closed cb t hst]
      by_cases hth : cb.failure_threshold ≤ cb.failure_count + 1 <;>
        simp [hth]
    cases rest with
    | nil =>
      have hth : cb.failure_threshold ≤ cb.failure_count + 1 := by
        simp at hcount
        omega
      show (cb.call t (Except.error PyErr.generic : Except PyErr Unit)).1 = _
      rw [hstep, if_pos hth]
      have hT : cb.failure_count + 1 = cb.failure_threshold := by
        simp at hcount
        omega
      simp [CircuitBreaker.openCircuit, hT]
    | cons t2 rest2 =>
      have hth : ¬ cb.failure_threshold ≤ cb.failure_count + 1 := by
        simp at hcount
        omega
      have hfold : failTimes cb (t :: t2 :: rest2) =
          failTimes (cb.call t (Except.error PyErr.generic : Except PyErr Unit)).1
            (t2 :: rest2) := rfl
      rw [hfold, hstep, if_neg hth]
      rw [ih { cb with failure_count := cb.failure_count + 1 } (by simp) hst hlast
        (by simp at hcount ⊢; omega)]
      rw [List.getLast_cons (by simp : (t2 :: rest2 : List Int) ≠ [])]

/-- C4: circuit-breaker transitions. Starting from a fresh breaker with
threshold `T` and recovery timeout `R`, after `T` consecutive failing calls
(at instants `ts`) the breaker is `OPEN` with failure count `T`; a call
before the recovery timeout has elapsed is rejected with the circuit-open
error for *every* wrapped operation, leaving the breaker unchanged (the
operation is never invoked); once `R` seconds have elapsed since the last
failure the `state` property reports `HALF_OPEN`; from there one successful
call closes the breaker and clears the failure counter, and one failing call
reopens it and restamps the failure time. -/
theorem circuit_breaker_transitions (T : Nat) (R : Int) (ts : List Int)
    (now1 now2 now3 now4 : Int) (e : PyErr) (func : Except PyErr Unit)
    (hne : ts ≠ []) (hlen : ts.length = T)
    (h1 : now1 - ts.getLast hne < R)
    (h0 : ts.getLast hne ≠ 0)
    (h2 : R ≤ now2 - ts.getLast hne) :
    (failTimes (mkCircuitBreaker T R) ts).stateRaw = CBState.OPEN ∧
    (failTimes (mkCircuitBreaker T R) ts).failure_count = T ∧
    (failTimes (mkCircuitBreaker T R) ts).call now1 func =
      (failTimes (mkCircuitBreaker T R) ts, Except.error PyErr.circuitOpen) ∧
    ((failTimes (mkCircuitBreaker T R) ts).state now2).2 = CBState.HALF_OPEN ∧
    (((failTimes (mkCircuitBreaker T R) ts).state now2).1.call now3
        (Except.ok () : Except PyErr Unit)).1.stateRaw = CBState.CLOSED ∧
    (((failTimes (mkCircuitBreaker T R) ts).state now2).1.call now3
        (Except.ok () : Except PyErr Unit)).1.failure_count = 0 ∧
    (((failTimes (mkCircuitBreaker T R) ts).state now2).1.call now4
        (Except.error e : Except PyErr Unit)).1.stateRaw = CBState.OPEN ∧
    (((failTimes (mkCircuitBreaker T R) ts).state now2).1.call now4
        (Except.error e : Except PyErr Unit)).1.last_failure_time = some now4 := by
  have hF : failTimes (mkCircuitBreaker T R) ts =
      { failure_threshold := T, recovery_timeout := R, failure_count := T,
        last_failure_time := some (ts.getLast hne), stateRaw := CBState.OPEN } := by
    have h := failTimes_closed_run ts (mkCircuitBreaker T R) hne rfl rfl
      (by simp [mkCircuitBreaker, hlen])
    rw [h]
    rfl
  rw [hF]
  have hb1 : (!decide (ts.getLast hne = 0) && decide (R ≤ now1 - ts.getLast hne)) = false := by
    simp
    intro _
    omega
  have hb2 : (!decide (ts.getLast hne = 0) && decide (R ≤ now2 - ts.getLast hne)) = true := by
    simp [h0, h2]
  refine ⟨rfl, rfl, ?_, ?_, ?_, ?_, ?_, ?_⟩
  · unfold CircuitBreaker.call CircuitBreaker.state
    simp only [hb1, Bool.false_eq_true, if_false]
  · unfold CircuitBreaker.state
    simp only [hb2, if_pos]
  · unfold CircuitBreaker.state
    simp only [hb2, if_pos]
    rfl
  · unfold CircuitBreaker.state
    simp only [hb2, if_pos]
    rfl
  · unfold CircuitBreaker.state
    simp only [hb2, if_pos]
    rfl
  · unfold CircuitBreaker.state
    simp only [hb2, if_pos]
    rfl

/-- C4 (witness): the breaker transitions at threshold 2, recovery timeout
60, failures at instants 10 and 20, and probes at instants 30 (rejected) and
90 (half-open, then closed by a success / reopened by a failure). -/
theorem circuit_breaker_transitions_witness :
    (failTimes (mkCircuitBreaker 2 60) [10, 20]).stateRaw = CBState.OPEN ∧
    (failTimes (mkCircuitBreaker 2 60) [10, 20]).failure_count = 2 ∧
    (failTimes (mkCircuitBreaker 2 60) [10, 20]).call 30
        (Except.error PyErr.generic : Except PyErr Unit) =
      (failTimes (mkCircuitBreaker 2 60) [10, 20], Except.error PyErr.circuitOpen) ∧
    ((failTimes (mkCircuitBreaker 2 60) [10, 20]).state 90).2 = CBState.HALF_OPEN ∧
    (((failTimes (mkCircuitBreaker 2 60) [10, 20]).state 90).1.call 91
        (Except.ok () : Except PyErr Unit)).1.stateRaw = CBState.CLOSED ∧
    (((failTimes (mkCircuitBreaker 2 60) [10, 20]).state 90).1.call 91
        (Except.ok () : Except PyErr Unit)).1.failure_count = 0 ∧
    (((failTimes (mkCircuitBreaker 2 60) [10, 20]).state 90).1.call 92
        (Except.error PyErr.generic : Except PyErr Unit)).1.stateRaw = CBState.OPEN ∧
    (((failTimes (mkCircuitBreaker 2 60) [10, 20]).state 90).1.call 92
        (Except.error PyErr.generic : Except PyErr Unit)).1.last_failure_time = some 92 :=
  circuit_breaker_transitions 2 60 [10, 20] 30 90 91 92 PyErr.generic
    (Except.error PyErr.generic) (by decide) (by decide) (by decide) (by decide)
    (by decide)

lemma makeRequestGo_all_503 (maxRetries : Nat) (outcomes : Nat → RequestOutcome)
    (h503 : ∀ i, i < maxRetries → outcomes i = RequestOutcome.httpStatus 503) :
    ∀ remaining attempt, attempt + remaining = maxRetries →
      makeRequestGo maxRetries outcomes attempt remaining = (none, maxRetries) := by
  intro remaining
  induction remaining with
  | zero =>
    intro attempt h
    simp only [Nat.add_zero] at h
    subst h
    rfl
  | succ r ih =>
    intro attempt h
    have hlt : attempt < maxRetries := by omega
    simp only [makeRequestGo, h503 attempt hlt]
    norm_num
    by_cases hc : attempt < maxRetries - 1
    · rw [if_pos hc]
      exact ih (attempt + 1) (by omega)
    · rw [if_neg hc]
      have : attempt + 1 = maxRetries := by omega
      rw [this]

/-- C5: if every HTTP POST during one `_make_request` invocation returns
status 503, the POST is attempted exactly `maxRetries` times — not more, not
fewer — and the call returns the `none` ("no answer") fallback without
raising. -/
theorem make_request_retry_ceiling_503 (maxRetries : Nat)
    (outcomes : Nat → RequestOutcome)
    (h503 : ∀ i, i < maxRetries → outcomes i = RequestOutcome.httpStatus 503) :
    make_request maxRetries outcomes = (none, maxRetries) :=
  makeRequestGo_all_503 maxRetries outcomes h503 maxRetries 0 (by omega)

/-- C5 (witness): three attempts, all 503, at the default retry bound 3. -/
theorem make_request_retry_ceiling_503_witness :
    make_request 3 (fun _ => RequestOutcome.httpStatus 503) = (none, 3) :=
  make_request_retry_ceiling_503 3 _ (fun i _ => rfl)

lemma call_closed_ok {α : Type} (cb : CircuitBreaker) (now : Int) (r : α)
    (hst : cb.stateRaw = CBState.CLOSED) :
    cb.call now (Except.ok r : Except PyErr α) = (cb, Except.ok r) := by
  unfold CircuitBreaker.call
  rw [circuit_state_closed cb now hst]

lemma sendRequests_closed (cb : CircuitBreaker)
    (hst : cb.stateRaw = CBState.CLOSED) :
    ∀ calls, sendRequests cb calls =
      (cb, calls.map (fun c => (make_request c.2.1 c.2.2).1)) := by
  intro calls
  induction calls with
  | nil => rfl
  | cons c rest ih =>
    obtain ⟨now, mr, oc⟩ := c
    have hsr : send_request cb now mr oc = (cb, (make_request mr oc).1) := by
      unfold send_request
      rw [call_closed_ok cb now _ hst]
    simp [sendRequests, hsr, ih]

/-- C10: `_make_request` returns a value for every outcome sequence (all
failure classes are absorbed into the `none` fallback, never raised), so the
circuit breaker wrapping it in `send_request` records no failure: over any
sequence of `send_request` calls starting from a fresh breaker, every call
returns exactly the `_make_request` result, the breaker is unchanged, its
failure counter stays 0 and its state stays `CLOSED`. -/
theorem send_request_breaker_stays_closed (T : Nat) (R : Int)
    (calls : List (Int × Nat × (Nat → RequestOutcome))) :
    sendRequests (mkCircuitBreaker T R) calls =
      (mkCircuitBreaker T R, calls.map (fun c => (make_request c.2.1 c.2.2).1)) ∧
    (sendRequests (mkCircuitBreaker T R) calls).1.failure_count = 0 ∧
    (sendRequests (mkCircuitBreaker T R) calls).1.stateRaw = CBState.CLOSED := by
  have h := sendRequests_closed (mkCircuitBreaker T R) rfl calls
  exact ⟨h, by rw [h]; rfl, by rw [h]; rfl⟩

/-- C7: a `resume=true` ingestion run with checkpointed URLs `A`, `B` and a
sitemap `A, B, C` attempts extraction only for `C`; in general every URL
already in the checkpoint's `processed_urls` is excluded from the work
set. -/
theorem resume_skips_processed_urls (A B C : PyStr)
    (sitemap processed : List PyStr) (u : PyStr)
    (hC : C ∉ ([A, B] : List PyStr)) (hu : u ∈ processed) :
    urlsToProcess [A, B, C] [A, B] true = [C] ∧
    u ∉ urlsToProcess sitemap processed true := by
  constructor
  · have hA : A ∈ ([A, B] : List PyStr) := by simp
    have hB : B ∈ ([A, B] : List PyStr) := by simp
    have hC2 : ¬ C = A ∧ ¬ C = B := by simpa [not_or] using hC
    simp [urlsToProcess, List.filter_cons, hA, hB, hC2.1, hC2.2]
  · intro hmem
    rw [urlsToProcess, if_pos rfl] at hmem
    have h2 := (List.mem_filter.mp hmem).2
    simp at h2
    exact h2 hu

/-- C7 (witness): the checkpointed/sitemap scenario at concrete URLs. -/
theorem resume_skips_processed_urls_witness :
    urlsToProcess ["a".toList, "b".toList, "c".toList]
        ["a".toList, "b".toList] true = ["c".toList] ∧
    "a".toList ∉ urlsToProcess ["a".toList, "x".toList] ["a".toList] true :=
  resume_skips_processed_urls "a".toList "b".toList "c".toList
    ["a".toList, "x".toList] ["a".toList] "a".toList (by decide) (by decide)

/-- C1 (evaluation at the failing input): chunking `"ab. cdefghij."` with
`max_chunk_size = 5` emits a chunk of `char_count = 9 > 5`: the second
sentence (9 characters with its terminator) exceeds the bound while the
buffer is non-empty, so it becomes the new buffer without any length check
and is flushed oversize — refuting the `char_count ≤ N` invariant the code's
own docstring states. -/
theorem chunk_text_oversize_chunk_eval :
    (chunk_text "ab. cdefghij.".toList "u".toList 5).map (fun c => c.char_count) =
      [3, 9] ∧
    ¬ (∀ c ∈ chunk_text "ab. cdefghij.".toList "u".toList 5, c.char_count ≤ 5) := by
  constructor
  · rfl
  · decide

